import Mathlib

/-!
Verification of the Product-Roadmap client-side document model.

The definitions below are a shallow embedding of the JavaScript source:
`statusManager.js` (status registry and legend handlers), `roadmapUi.js`
(milestone/checklist DOM construction and status propagation) and
`script.js` (serialization, persistence, debounced autosave).  Each
definition names the source function it embeds; DOM state is carried as
explicit structures, the single-threaded event loop as lists of events.
-/

/-! ### Status registry (`statusManager.js`) -/

/-- A status definition as stored in the `STATUSES` array: `{ name, icon }`. -/
structure StatusDef where
  name : String
  icon : String
deriving DecidableEq

/-- The list of names of a registry, `STATUSES.map(s => s.name)`. -/
def statusNames (r : List StatusDef) : List String :=
  r.map StatusDef.name

/-- `DEFAULT_STATUSES` from `config.js`. -/
def DEFAULT_STATUSES : List StatusDef :=
  [⟨"Not Started", "📝"⟩, ⟨"In Progress", "⚙️"⟩, ⟨"Completed", "✅"⟩,
   ⟨"Blocked", "🛑"⟩, ⟨"At Risk", "⚠️"⟩]

/-- The candidate default name tried by `handleAddStatusClick` at loop
counter `c`: `'New Status'` for the first try, then `` `New Status ${c}` ``. -/
def newStatusCandidate (c : Nat) : String :=
  if c ≤ 1 then "New Status" else "New Status " ++ Nat.repr c

/-- The `while (STATUSES.some(s => s.name === defaultName))` search of
`handleAddStatusClick`, made total with explicit fuel: try candidates at
counters `c, c+1, …`; once the fuel is spent return the next candidate
unchecked (never reached when the fuel exceeds the registry size). -/
def freshStatusNameAux (names : List String) : Nat → Nat → String
  | c, 0 => newStatusCandidate c
  | c, fuel + 1 =>
    if newStatusCandidate c ∈ names then
      freshStatusNameAux names (c + 1) fuel
    else
      newStatusCandidate c

/-- The fresh default name chosen by `handleAddStatusClick` for registry `r`. -/
def freshStatusName (r : List StatusDef) : String :=
  freshStatusNameAux (statusNames r) 1 (r.length + 1)

/-- `handleAddStatusClick` (state change only): push a new status with the
fresh default name and the `'❓'` default icon. -/
def handleAddStatusClick (r : List StatusDef) : List StatusDef :=
  r ++ [⟨freshStatusName r, "❓"⟩]

/-- JavaScript `String.prototype.trim()`: strip leading and trailing
whitespace (the blank, tab and line-break characters that can reach the
status-name input). -/
def isJsWhitespace (c : Char) : Bool :=
  c = ' ' || c = '\t' || c = '\n' || c = '\r'

/-- JavaScript `newName.trim()` over the character list of the string. -/
def jsTrim (s : String) : String :=
  ⟨((s.data.dropWhile isJsWhitespace).reverse.dropWhile isJsWhitespace).reverse⟩

/-- The name-edit path of `handleStatusLegendChange`: at a valid `index`,
reject an empty trimmed name (input reverted, no state change), ignore a
no-op rename, otherwise store the trimmed name and return the
`(oldName, trimmedNewName)` pair handed to `updateRoadmapDropdowns`. -/
def handleStatusLegendChange (r : List StatusDef) (index : Nat) (newName : String) :
    List StatusDef × Option (String × String) :=
  if h : index < r.length then
    let oldName := (r.get ⟨index, h⟩).name
    let trimmedNewName := jsTrim newName
    if trimmedNewName = "" then (r, none)
    else if oldName = trimmedNewName then (r, none)
    else (r.set index { r.get ⟨index, h⟩ with name := trimmedNewName },
          some (oldName, trimmedNewName))
  else (r, none)

/-- The remove path of `handleLegendClick` (with the confirmation dialog
accepted): refuse to remove the last status, otherwise splice out the
indexed entry and return the removed name handed to
`updateRoadmapDropdowns`. -/
def handleLegendClickRemove (r : List StatusDef) (index : Nat) :
    List StatusDef × Option String :=
  if r.length ≤ 1 then (r, none)
  else if h : index < r.length then
    (r.eraseIdx index, some (r.get ⟨index, h⟩).name)
  else (r, none)

/-- The icon-update path of `handleEmojiGridClick`: at a valid index, update
the icon only when it actually changed. -/
def handleEmojiGridClick (r : List StatusDef) (index : Nat) (newEmoji : String) :
    List StatusDef :=
  if h : index < r.length then
    if (r.get ⟨index, h⟩).icon = newEmoji then r
    else r.set index { r.get ⟨index, h⟩ with icon := newEmoji }
  else r

/-- The four registry-mutating interactions of `statusManager.js`. -/
inductive RegistryOp where
  | add : RegistryOp
  | rename (index : Nat) (newName : String) : RegistryOp
  | remove (index : Nat) : RegistryOp
  | setIcon (index : Nat) (newEmoji : String) : RegistryOp

/-- Registry state after one legend interaction. -/
def applyRegistryOp (r : List StatusDef) : RegistryOp → List StatusDef
  | .add => handleAddStatusClick r
  | .rename i nm => (handleStatusLegendChange r i nm).1
  | .remove i => (handleLegendClickRemove r i).1
  | .setIcon i e => handleEmojiGridClick r i e

/-! ### Checklist items and status propagation (`roadmapUi.js`) -/

/-- The state a checklist-item row keeps in the DOM: the
`dataset.status` reference, the icon glyph and `aria-label` of the
`.checklist-item-status-icon` span, and the description input value. -/
structure ChecklistItemEl where
  status : String
  icon : String
  label : String
  text : String
deriving DecidableEq

/-- `statuses.length > 0 ? statuses[0].name : 'Not Started'`, the fallback
name used by `updateRoadmapDropdowns`. -/
def firstStatusNameOf (statuses : List StatusDef) : String :=
  match statuses with
  | [] => "Not Started"
  | s :: _ => s.name

/-- `statuses.find(s => s.name === n) || { icon: '❓', name: n }`, the lookup
used whenever an icon must be refreshed. -/
def findStatusOr (statuses : List StatusDef) (n : String) : StatusDef :=
  match statuses.find? (fun s => s.name = n) with
  | some s => s
  | none => ⟨n, "❓"⟩

/-- The body of the `dropdowns.forEach` loop of `updateRoadmapDropdowns`,
acting on one checklist item.  A rename maps the old name to the new one;
the (possibly renamed) value is kept when it still exists among the current
statuses, otherwise the item is reset to the first status and its icon and
`aria-label` refreshed in the same pass.  `removedName` only selects the
console warning and has no effect on the resulting state. -/
def updateDropdownItem (statuses : List StatusDef)
    (oldName newName removedName : Option String) (item : ChecklistItemEl) :
    ChecklistItemEl :=
  let currentSelectedValue := item.status
  let valueToSelectAfterUpdate :=
    match oldName, newName with
    | some o, some n =>
      if o ≠ n ∧ currentSelectedValue = o then n else currentSelectedValue
    | _, _ => currentSelectedValue
  let _ := removedName
  if statuses.any (fun s => s.name = valueToSelectAfterUpdate) then
    { item with status := valueToSelectAfterUpdate }
  else
    let firstStatusName := firstStatusNameOf statuses
    let fallbackStatusObj := findStatusOr statuses firstStatusName
    { status := firstStatusName, icon := fallbackStatusObj.icon,
      label := fallbackStatusObj.name, text := item.text }

/-- The whole `updateRoadmapDropdowns` pass over every checklist item of the
roadmap. -/
def updateRoadmapDropdowns (statuses : List StatusDef)
    (oldName newName removedName : Option String) (items : List ChecklistItemEl) :
    List ChecklistItemEl :=
  items.map (updateDropdownItem statuses oldName newName removedName)

/-! ### Milestone id counter (`roadmapUi.js`: `milestoneCounter`,
`addMilestoneSection`, `generateRoadmap`) -/

/-- One call of `addMilestoneSection`: `gen` is a call with no data (a fresh
id `milestone-<counter>` is generated); `load k` is a call with snapshot
data whose id is `milestone-<k>` (so `parseInt(id.split('-')[1], 10) = k`). -/
inductive MilestoneOp where
  | gen : MilestoneOp
  | load (k : Nat) : MilestoneOp

/-- The module state of `roadmapUi.js` relevant to id generation: the
`milestoneCounter`, together with the history of numeric id suffixes seen so
far (generated or loaded) — the ids present in the roadmap sequence. -/
structure MilestoneIdState where
  milestoneCounter : Nat
  seenSuffixes : List Nat
deriving DecidableEq

/-- The numeric suffix a dataless `addMilestoneSection` call would generate
next: the counter is pre-incremented, then the id is
`` `milestone-${milestoneCounter}` ``. -/
def generatedSuffix (s : MilestoneIdState) : Nat :=
  s.milestoneCounter + 1

/-- `addMilestoneSection`: `milestoneCounter++` always happens first; when
the call carries data with id `milestone-<k>`, the loaded id is used and
`if (num >= milestoneCounter) milestoneCounter = num + 1` keeps the counter
ahead of loaded ids. -/
def applyMilestoneOp (s : MilestoneIdState) : MilestoneOp → MilestoneIdState
  | .gen =>
    ⟨s.milestoneCounter + 1, s.seenSuffixes ++ [s.milestoneCounter + 1]⟩
  | .load k =>
    let c := s.milestoneCounter + 1
    ⟨if c ≤ k then k + 1 else c, s.seenSuffixes ++ [k]⟩

/-- A roadmap built from scratch: `generateRoadmap` resets
`milestoneCounter = 0`, then the adds and loads run. -/
def runMilestoneOps (l : List MilestoneOp) : MilestoneIdState :=
  l.foldl applyMilestoneOp ⟨0, []⟩

/-! ### Milestone dates (`roadmapUi.js`: `_handleMilestoneDateBlur`) -/

/-- Leap-year rule of the Gregorian calendar (as implemented by the
JavaScript `Date`). -/
def isLeapYear (y : Nat) : Bool :=
  (y % 4 = 0 && y % 100 ≠ 0) || y % 400 = 0

/-- Number of days of month `m` in year `y`. -/
def daysInMonth (y m : Nat) : Nat :=
  if m = 2 then (if isLeapYear y then 29 else 28)
  else if m = 4 ∨ m = 6 ∨ m = 9 ∨ m = 11 then 30
  else 31

/-- Decimal value of a digit character. -/
def digitCharVal (c : Char) : Nat :=
  c.toNat - '0'.toNat

/-- Validity of the string a date input hands to `_handleMilestoneDateBlur`:
the handler builds `new Date(finalDateStr + 'T00:00:00')` and rejects the
value when `getTime()` is `NaN`.  For the `YYYY-MM-DD` strings a
`type="date"` input produces, that test accepts exactly the well-formed
calendar dates, which is what this function decides. -/
def isValidJsDate (s : String) : Bool :=
  match s.data with
  | [y1, y2, y3, y4, '-', m1, m2, '-', d1, d2] =>
    if (y1.isDigit && y2.isDigit && y3.isDigit && y4.isDigit &&
        m1.isDigit && m2.isDigit && d1.isDigit && d2.isDigit) then
      let y := 1000 * digitCharVal y1 + 100 * digitCharVal y2 +
               10 * digitCharVal y3 + digitCharVal y4
      let m := 10 * digitCharVal m1 + digitCharVal m2
      let d := 10 * digitCharVal d1 + digitCharVal d2
      1 ≤ m && m ≤ 12 && 1 ≤ d && d ≤ daysInMonth y m
    else false
  | _ => false

/-- The date-related fields of a milestone: the date input value and the
`data-original-date` attribute of the `.original-date-display` span. -/
structure MilestoneDates where
  currentCompletionDate : String
  originalCompletionDate : String
deriving DecidableEq

/-- `_handleMilestoneDateBlur`: only when no original date is stored yet
(`!currentOriginal`), the input is non-empty and it parses as a valid date
is the original date set to the raw input value; otherwise nothing changes
(an invalid value is logged and rejected). -/
def handleMilestoneDateBlur (m : MilestoneDates) : MilestoneDates :=
  if m.originalCompletionDate = "" then
    if m.currentCompletionDate ≠ "" then
      if isValidJsDate m.currentCompletionDate then
        { m with originalCompletionDate := m.currentCompletionDate }
      else m
    else m
  else m

/-- The normal edit path of the date fields: the user edits the date input
(changing only `currentCompletionDate`), and blur events run
`_handleMilestoneDateBlur`. -/
inductive DateEditOp where
  | setCurrentDate (s : String) : DateEditOp
  | blurDate : DateEditOp

/-- Effect of one date-edit interaction. -/
def applyDateOp (m : MilestoneDates) : DateEditOp → MilestoneDates
  | .setCurrentDate s => { m with currentCompletionDate := s }
  | .blurDate => handleMilestoneDateBlur m

/-! ### Debounced autosave and manual save (`script.js`: `debounce`,
`debouncedAutoSave`, `handleManualSaveClick`) -/

/-- `debouncedAutoSave` is built with a 2.5-second delay:
`debounce(() => performSave(true), 2500)`. -/
def autosaveDebounceDelay : Nat := 2500

/-- The two ways `performSave` gets reached: `trigger t` is a call of the
debounced `debouncedAutoSave` at time `t` (it clears and re-arms the single
timer slot); `manualSave t` is `handleManualSaveClick` at time `t`, which
calls `performSave(false)` directly. -/
inductive SaveEvent where
  | trigger (t : Nat) : SaveEvent
  | manualSave (t : Nat) : SaveEvent

/-- Time at which an event occurs. -/
def SaveEvent.time : SaveEvent → Nat
  | .trigger t => t
  | .manualSave t => t

/-- Event-loop semantics of the single `timeout` slot of `debounce` together
with the manual save: events are processed in time order; a pending timer
whose deadline is reached fires `performSave(true)` before the next event is
handled; `trigger t` replaces the pending timer with deadline `t + wait`
(`clearTimeout` then `setTimeout`); `manualSave t` runs `performSave(false)`
at once and leaves the timer slot untouched; after the last event a still
pending timer fires.  Result: the list of `performSave` runs as
`(time, isAutoSave)` pairs. -/
def runSaveEvents (wait : Nat) : List SaveEvent → Option Nat → List (Nat × Bool)
  | [], pending =>
    match pending with
    | some f => [(f, true)]
    | none => []
  | e :: es, pending =>
    let fired : List (Nat × Bool) :=
      match pending with
      | some f => if f ≤ e.time then [(f, true)] else []
      | none => []
    let pendingAfterFire : Option Nat :=
      match pending with
      | some f => if f ≤ e.time then none else some f
      | none => none
    match e with
    | .trigger t => fired ++ runSaveEvents wait es (some (t + wait))
    | .manualSave t => fired ++ (t, false) :: runSaveEvents wait es pendingAfterFire

/-! ### Roadmap DOM model, serialization and loading (`script.js`,
`roadmapUi.js`) -/

/-- A checklist-item record of a snapshot (`{ id, text, status }` — the id
plays no role when re-rendering). -/
structure ItemData where
  text : Option String
  status : Option String
deriving DecidableEq

/-- A milestone record of a snapshot. -/
structure MilestoneData where
  id : Option String
  title : Option String
  purpose : Option String
  currentCompletionDate : Option String
  originalCompletionDate : Option String
  items : List ItemData
deriving DecidableEq

/-- The DOM subtree `createMilestoneElement` builds for one milestone: its
element id, the tag of the content-editable title element, the title text,
the date input value, the `data-original-date` attribute, the purpose text
and the checklist items. -/
structure MilestoneEl where
  id : String
  titleTag : String
  title : String
  dateValue : String
  originalDate : String
  purpose : String
  items : List ChecklistItemEl
deriving DecidableEq

/-- `createChecklistItemElement(itemData)`: the initial status is the
item's own status when it exists in the registry, else the first registry
entry (else the literal `'Not Started'`); icon and `aria-label` come from
the matching status definition (`'❓'` fallback). -/
def createChecklistItemElement (statuses : List StatusDef)
    (itemData : Option ItemData) : ChecklistItemEl :=
  let initialStatusName :=
    match itemData with
    | some d =>
      match d.status with
      | some st =>
        if statuses.any (fun s => s.name = st) then st
        else firstStatusNameOf statuses
      | none => firstStatusNameOf statuses
    | none => firstStatusNameOf statuses
  let initialStatusObj := findStatusOr statuses initialStatusName
  { status := initialStatusName, icon := initialStatusObj.icon,
    label := initialStatusObj.name,
    text := (itemData.bind ItemData.text).getD "" }

/-- `id.split('-')[1]` of a milestone id, or `""` when there is no dash. -/
def milestoneIdSuffix (id : String) : String :=
  match (id.splitOn "-").drop 1 with
  | [] => ""
  | s :: _ => s

/-- `createMilestoneElement(milestoneId, milestoneData)`.  The title element
is created as an `h3` (`document.createElement('h3')` — the comment in the
source reads `// Changed to h3`); all other fields are populated from the
data with the source's defaults. -/
def createMilestoneElement (statuses : List StatusDef) (milestoneCounter : Nat)
    (milestoneId : String) (milestoneData : Option MilestoneData) : MilestoneEl :=
  let titleFromData := (milestoneData.bind MilestoneData.title).getD ""
  let title :=
    if titleFromData = "" then
      let suffix := milestoneIdSuffix milestoneId
      "Milestone " ++ (if suffix = "" then Nat.repr milestoneCounter else suffix)
    else titleFromData
  { id := milestoneId
    titleTag := "h3"
    title := title
    dateValue := (milestoneData.bind MilestoneData.currentCompletionDate).getD ""
    originalDate := (milestoneData.bind MilestoneData.originalCompletionDate).getD ""
    purpose := (milestoneData.bind MilestoneData.purpose).getD ""
    items :=
      match milestoneData with
      | some d => d.items.map (fun it => createChecklistItemElement statuses (some it))
      | none => [] }

/-- `addMilestoneSection(milestoneData)` acting on the counter and the
`#roadmap-output` children: increments the counter, chooses the loaded id or
a generated `milestone-<counter>` id, keeps the counter ahead of loaded
numeric ids, and appends the element built by `createMilestoneElement`. -/
def addMilestoneSection (statuses : List StatusDef) (milestoneCounter : Nat)
    (dom : List MilestoneEl) (milestoneData : Option MilestoneData) :
    Nat × List MilestoneEl :=
  let counter := milestoneCounter + 1
  let milestoneId :=
    match milestoneData.bind MilestoneData.id with
    | some id => id
    | none => "milestone-" ++ Nat.repr counter
  let counter' :=
    match milestoneData.bind MilestoneData.id with
    | some id =>
      match (milestoneIdSuffix id).toNat? with
      | some num => if counter ≤ num then num + 1 else counter
      | none => counter
    | none => counter
  (counter', dom ++ [createMilestoneElement statuses counter milestoneId milestoneData])

/-- The snapshot shape produced by `getCurrentRoadmapState` and stored under
`roadmapGeneratorState_v2`. -/
structure RoadmapState where
  roadmapName : String
  milestones : List MilestoneData
deriving DecidableEq

/-- `getCurrentRoadmapState`: reads the live DOM back into a snapshot.  For
each `.milestone-section` it queries the title with
`querySelector('h4[contenteditable="true"]')` (the source comment reads
`// Corrected selector from h3 to h4`); a milestone whose query comes back
null is skipped with a console warning.  Items are read from the
`.checklist-item` rows, with ids re-derived positionally. -/
def getCurrentRoadmapState (roadmapName : String) (dom : List MilestoneEl) :
    RoadmapState :=
  { roadmapName := roadmapName
    milestones := dom.filterMap (fun milestoneEl =>
      let titleEl : Option String :=
        if milestoneEl.titleTag = "h4" then some milestoneEl.title else none
      match titleEl with
      | none => none
      | some titleText =>
        some { id := some milestoneEl.id
               title := some titleText
               purpose := some milestoneEl.purpose
               currentCompletionDate := some milestoneEl.dateValue
               originalCompletionDate := some milestoneEl.originalDate
               items := milestoneEl.items.map (fun it =>
                 { text := some it.text, status := some it.status }) }) }

/-! ### Stored-state loading and format versioning (`script.js`:
`loadRoadmapState`, `renderRoadmapFromData`) -/

/-- A parsed JSON value, the result of a successful `JSON.parse`. -/
inductive Json where
  | jsonNull : Json
  | jsonBool (b : Bool) : Json
  | jsonNum (n : Int) : Json
  | jsonStr (s : String) : Json
  | jsonArr (elems : List Json) : Json
  | jsonObj (fields : List (String × Json)) : Json

/-- JavaScript truthiness of a parsed value (`null`, `false`, `0` and `""`
are falsy; arrays and objects are always truthy). -/
def jsTruthy : Json → Bool
  | .jsonNull => false
  | .jsonBool b => b
  | .jsonNum n => n ≠ 0
  | .jsonStr s => s ≠ ""
  | .jsonArr _ => true
  | .jsonObj _ => true

/-- `typeof v === 'object'` for a parsed value (`null`, arrays and objects). -/
def jsTypeofObject : Json → Bool
  | .jsonNull => true
  | .jsonArr _ => true
  | .jsonObj _ => true
  | _ => false

/-- Property access `v.key` on a parsed value: defined on objects, absent
(`undefined`, modelled as `none`) otherwise. -/
def getField : Json → String → Option Json
  | .jsonObj fields, key => (fields.find? (fun f => f.1 = key)).map Prod.snd
  | _, _ => none

/-- `Array.isArray(v)`. -/
def jsIsArray : Option Json → Bool
  | some (.jsonArr _) => true
  | _ => false

/-- `Object.keys(v).length` for the values that reach the minimal-snapshot
check (objects and arrays). -/
def jsKeysLength : Json → Nat
  | .jsonObj fields => fields.length
  | .jsonArr elems => elems.length
  | _ => 0

/-- `v.hasOwnProperty(key)`. -/
def jsHasOwnProperty : Json → String → Bool
  | .jsonObj fields, key => fields.any (fun f => f.1 = key)
  | _, _ => false

/-- The distinct outcomes of `renderRoadmapFromData`'s validation: data that
is null or not an object, the legacy `periods`-keyed shape (rejected with
the dedicated "Incompatible Data" alert), a missing or non-array
`milestones` field, or an accepted snapshot (name plus milestone list,
possibly defaulted to empty for a name-only snapshot). -/
inductive RenderResult where
  | invalidData : RenderResult
  | incompatibleLegacy : RenderResult
  | invalidMilestones : RenderResult
  | rendered (roadmapName : String) (milestones : List Json) : RenderResult

/-- `data.roadmapName || ''` as assigned to the name input. -/
def jsStringOrEmpty : Option Json → String
  | some (.jsonStr s) => s
  | _ => ""

/-- The validation sequence of `renderRoadmapFromData`: reject falsy or
non-object data; reject the old `periods`-keyed format with its own
distinct alert; require a `milestones` array unless the snapshot is the
minimal `{ roadmapName }` shape (then treated as zero milestones); on
success the milestones are rendered via `addMilestoneSection`. -/
def renderRoadmapFromData (data : Json) : RenderResult :=
  if !(jsTruthy data) || !(jsTypeofObject data) then
    .invalidData
  else if jsTruthy ((getField data "periods").getD .jsonNull) &&
          jsIsArray (getField data "periods") then
    .incompatibleLegacy
  else
    match getField data "milestones" with
    | some (.jsonArr ms) =>
      if jsTruthy (.jsonArr ms) then
        .rendered (jsStringOrEmpty (getField data "roadmapName")) ms
      else .invalidMilestones
    | _ =>
      if jsKeysLength data = 1 && jsHasOwnProperty data "roadmapName" then
        .rendered (jsStringOrEmpty (getField data "roadmapName")) []
      else .invalidMilestones

/-- User-visible outcome of `loadRoadmapState`, one per distinct message
path: no stored data; unparseable stored bytes (the `JSON.parse` catch with
its "might be corrupted" alert); the legacy-format rejection; other shape
failures; successful load. -/
inductive LoadOutcome where
  | noData : LoadOutcome
  | corrupt : LoadOutcome
  | incompatibleFormat : LoadOutcome
  | invalidFormat : LoadOutcome
  | loaded : LoadOutcome
deriving DecidableEq

/-- The document area after a load: the roadmap name input and the rendered
milestones of `#roadmap-output`. -/
structure DocArea where
  roadmapName : String
  milestones : List Json

/-- The cleared document area (`roadmapOutputDiv.innerHTML = ''`,
`roadmapNameInput.value = ''`). -/
def emptyDocArea : DocArea := ⟨"", []⟩

/-- `loadRoadmapState`: the stored slot is either absent (`none`),
unparseable (`some none`, `JSON.parse` throws) or parses to a value.  Every
failure path clears the document area and shows its own message; only a
fully validated snapshot is rendered. -/
def loadRoadmapState (stored : Option (Option Json)) : LoadOutcome × DocArea :=
  match stored with
  | none => (.noData, emptyDocArea)
  | some none => (.corrupt, emptyDocArea)
  | some (some data) =>
    match renderRoadmapFromData data with
    | .rendered nm ms => (.loaded, ⟨nm, ms⟩)
    | .incompatibleLegacy => (.incompatibleFormat, emptyDocArea)
    | .invalidData => (.invalidFormat, emptyDocArea)
    | .invalidMilestones => (.invalidFormat, emptyDocArea)

/-! ### Toolkit: decimal representations and list facts used by the proofs -/

/-- Decimal value of a digit-character list, most significant digit first. -/
def decimalVal (l : List Char) : Nat :=
  l.foldl (fun acc c => acc * 10 + digitCharVal c) 0

theorem digitCharVal_digitChar : ∀ d : Nat, d < 10 →
    digitCharVal (Nat.digitChar d) = d := by decide

theorem foldl_decimal_cons (c : Char) (l : List Char) (acc : Nat) :
    (c :: l).foldl (fun acc c => acc * 10 + digitCharVal c) acc
      = l.foldl (fun acc c => acc * 10 + digitCharVal c) (acc * 10 + digitCharVal c) := rfl

theorem toDigitsCore_decimalVal :
    ∀ (f n : Nat) (ds : List Char), n < 10 ^ f →
      (Nat.toDigitsCore 10 f n ds).foldl (fun acc c => acc * 10 + digitCharVal c) 0
        = ds.foldl (fun acc c => acc * 10 + digitCharVal c) n := by
  intro f
  induction f with
  | zero =>
    intro n ds hn
    simp only [Nat.pow_zero, Nat.lt_one_iff] at hn
    subst hn
    rfl
  | succ f ih =>
    intro n ds hn
    show (if n / 10 = 0 then Nat.digitChar (n % 10) :: ds
          else Nat.toDigitsCore 10 f (n / 10) (Nat.digitChar (n % 10) :: ds)).foldl
            (fun acc c => acc * 10 + digitCharVal c) 0
        = ds.foldl (fun acc c => acc * 10 + digitCharVal c) n
    by_cases h0 : n / 10 = 0
    · rw [if_pos h0, foldl_decimal_cons,
        digitCharVal_digitChar (n % 10) (Nat.mod_lt n (by omega))]
      have hmod : n % 10 = n := Nat.mod_eq_of_lt (by omega)
      rw [Nat.zero_mul, Nat.zero_add, hmod]
    · have hdiv : n / 10 < 10 ^ f := by
        have h10 : (10 : Nat) ^ (f + 1) = 10 ^ f * 10 := by ring
        exact (Nat.div_lt_iff_lt_mul (by omega)).mpr (h10 ▸ hn)
      rw [if_neg h0, ih (n / 10) (Nat.digitChar (n % 10) :: ds) hdiv,
        foldl_decimal_cons, digitCharVal_digitChar (n % 10) (Nat.mod_lt n (by omega))]
      have hsum : n / 10 * 10 + n % 10 = n := by omega
      rw [hsum]

theorem lt_ten_pow_succ (n : Nat) : n < 10 ^ (n + 1) := by
  induction n with
  | zero => decide
  | succ n ih =>
    have h : (10 : Nat) ^ (n + 2) = 10 * 10 ^ (n + 1) := by ring
    omega

theorem decimalVal_reprData (n : Nat) : decimalVal (Nat.repr n).data = n := by
  show (Nat.toDigitsCore 10 (n + 1) n []).foldl
      (fun acc c => acc * 10 + digitCharVal c) 0 = n
  rw [toDigitsCore_decimalVal (n + 1) n [] (lt_ten_pow_succ n)]
  rfl

theorem reprNat_injective : Function.Injective Nat.repr := by
  intro a b h
  have h2 := congrArg (fun s => decimalVal s.data) h
  simpa [decimalVal_reprData] using h2

theorem stringData_append (a b : String) : (a ++ b).data = a.data ++ b.data := rfl

theorem newStatusCandidate_injective_from_one :
    ∀ a b : Nat, 1 ≤ a → 1 ≤ b → newStatusCandidate a = newStatusCandidate b → a = b := by
  intro a b ha hb h
  unfold newStatusCandidate at h
  have h10 : ("New Status".data).length = 10 := by decide
  have h11 : ("New Status ".data).length = 11 := by decide
  by_cases h1 : a ≤ 1 <;> by_cases h2 : b ≤ 1
  · omega
  · rw [if_pos h1, if_neg h2] at h
    have hlen := congrArg (fun s => s.data.length) h
    simp only [stringData_append, List.length_append, h10, h11] at hlen
    omega
  · rw [if_neg h1, if_pos h2] at h
    have hlen := congrArg (fun s => s.data.length) h
    simp only [stringData_append, List.length_append, h10, h11] at hlen
    omega
  · rw [if_neg h1, if_neg h2] at h
    have hd := congrArg String.data h
    simp only [stringData_append] at hd
    have htl := List.append_cancel_left hd
    have ha' : decimalVal (Nat.repr a).data = a := decimalVal_reprData a
    have hb' : decimalVal (Nat.repr b).data = b := decimalVal_reprData b
    rw [← ha', ← hb']
    exact congrArg decimalVal htl

theorem exists_fresh_candidate (names : List String) :
    ∃ k, k < names.length + 1 ∧ newStatusCandidate (1 + k) ∉ names := by
  by_contra hcon
  push_neg at hcon
  have hinj : Function.Injective (fun k : Nat => newStatusCandidate (1 + k)) := by
    intro x y hxy
    have := newStatusCandidate_injective_from_one (1 + x) (1 + y)
      (by omega) (by omega) hxy
    omega
  have hnd : ((List.range (names.length + 1)).map
      (fun k => newStatusCandidate (1 + k))).Nodup :=
    (List.nodup_range _).map hinj
  have hsub : ((List.range (names.length + 1)).map
      (fun k => newStatusCandidate (1 + k))) ⊆ names := by
    intro x hx
    simp only [List.mem_map, List.mem_range] at hx
    obtain ⟨k, hk, rfl⟩ := hx
    exact hcon k hk
  have hle := (List.subperm_of_subset hnd hsub).length_le
  simp only [List.length_map, List.length_range] at hle
  omega

theorem freshStatusNameAux_not_mem (names : List String) :
    ∀ (fuel c : Nat), (∃ k, k < fuel ∧ newStatusCandidate (c + k) ∉ names) →
      freshStatusNameAux names c fuel ∉ names := by
  intro fuel
  induction fuel with
  | zero =>
    intro c ⟨k, hk, _⟩
    omega
  | succ fuel ih =>
    intro c ⟨k, hk, hmem⟩
    unfold freshStatusNameAux
    by_cases hc : newStatusCandidate c ∈ names
    · rw [if_pos hc]
      apply ih (c + 1)
      match k, hk, hmem with
      | 0, _, hmem => exact absurd hc (by simpa using hmem)
      | j + 1, hk, hmem =>
        exact ⟨j, by omega, by have : c + (j + 1) = c + 1 + j := by omega
                               rwa [this] at hmem⟩
    · rw [if_neg hc]
      exact hc

theorem freshStatusName_not_mem (r : List StatusDef) :
    freshStatusName r ∉ statusNames r := by
  apply freshStatusNameAux_not_mem
  obtain ⟨k, hk, hfree⟩ := exists_fresh_candidate (statusNames r)
  refine ⟨k, ?_, hfree⟩
  have : (statusNames r).length = r.length := List.length_map _ _
  omega

theorem map_eraseIdx {α β : Type} (f : α → β) :
    ∀ (l : List α) (i : Nat), (l.eraseIdx i).map f = (l.map f).eraseIdx i := by
  intro l
  induction l with
  | nil => intro i; rfl
  | cons a t ih =>
    intro i
    cases i with
    | zero => rfl
    | succ i => simpa using ih i

theorem get_not_mem_eraseIdx {α : Type} :
    ∀ (l : List α), l.Nodup → ∀ (i : Nat) (hi : i < l.length),
      l.get ⟨i, hi⟩ ∉ l.eraseIdx i := by
  intro l
  induction l with
  | nil => intro _ i hi; simp at hi
  | cons a t ih =>
    intro hnd i hi
    cases i with
    | zero =>
      simpa using (List.nodup_cons.mp hnd).1
    | succ i =>
      intro hmem
      simp only [List.eraseIdx_cons_succ, List.mem_cons] at hmem
      rcases hmem with heq | hmem
      · exact (List.nodup_cons.mp hnd).1 (heq ▸ (t.get_mem _ _))
      · exact ih (List.nodup_cons.mp hnd).2 i (by simpa using hi) hmem

theorem mem_eraseIdx_of_ne {α : Type} :
    ∀ (l : List α) (x : α) (i : Nat) (hi : i < l.length),
      x ∈ l → x ≠ l.get ⟨i, hi⟩ → x ∈ l.eraseIdx i := by
  intro l
  induction l with
  | nil => intro x i hi; simp at hi
  | cons a t ih =>
    intro x i hi hx hne
    cases i with
    | zero =>
      simp only [List.get] at hne
      simpa using (List.mem_cons.mp hx).resolve_left hne
    | succ i =>
      simp only [List.eraseIdx_cons_succ, List.mem_cons]
      rcases List.mem_cons.mp hx with heq | hmem
      · exact Or.inl heq
      · exact Or.inr (ih x i (by simpa using hi) hmem (by simpa using hne))

theorem mem_set_self {α : Type} :
    ∀ (l : List α) (i : Nat) (v : α), i < l.length → v ∈ l.set i v := by
  intro l
  induction l with
  | nil => intro i v hi; simp at hi
  | cons a t ih =>
    intro i v hi
    cases i with
    | zero => simp
    | succ i => simpa using Or.inr (ih i v (by simpa using hi))

theorem nodup_set_of_not_mem_eraseIdx {α : Type} :
    ∀ (l : List α) (i : Nat) (v : α), l.Nodup → v ∉ l.eraseIdx i →
      (l.set i v).Nodup := by
  intro l
  induction l with
  | nil => intro i v _ _; simp
  | cons a t ih =>
    intro i v hnd hv
    cases i with
    | zero =>
      simp only [List.eraseIdx_cons_zero] at hv
      simpa using ⟨hv, (List.nodup_cons.mp hnd).2⟩
    | succ i =>
      simp only [List.eraseIdx_cons_succ, List.mem_cons, not_or] at hv
      have ha : a ∉ t.set i v := by
        intro hmem
        rcases List.mem_or_eq_of_mem_set hmem with hmem' | heq
        · exact (List.nodup_cons.mp hnd).1 hmem'
        · exact hv.1 heq.symm
      simpa using ⟨ha, ih i v (List.nodup_cons.mp hnd).2 hv.2⟩

/-! ### Facts about the embedded operations -/

theorem statusNames_set (r : List StatusDef) :
    ∀ (i : Nat) (s : StatusDef),
      statusNames (r.set i s) = (statusNames r).set i s.name := by
  induction r with
  | nil => intro i s; rfl
  | cons a t ih =>
    intro i s
    cases i with
    | zero => rfl
    | succ i => simp [statusNames]

theorem statusNames_eraseIdx (r : List StatusDef) (i : Nat) :
    statusNames (r.eraseIdx i) = (statusNames r).eraseIdx i :=
  map_eraseIdx StatusDef.name r i

theorem any_name_eq_iff (statuses : List StatusDef) (v : String) :
    (statuses.any (fun s => s.name = v) = true) ↔ v ∈ statusNames statuses := by
  simp [statusNames, List.any_eq_true]

theorem milestone_counter_dominates :
    ∀ (l : List MilestoneOp) (s : MilestoneIdState),
      (∀ x ∈ s.seenSuffixes, x ≤ s.milestoneCounter) →
      ∀ x ∈ (l.foldl applyMilestoneOp s).seenSuffixes,
        x ≤ (l.foldl applyMilestoneOp s).milestoneCounter := by
  intro l
  induction l with
  | nil => intro s hs; exact hs
  | cons op ops ih =>
    intro s hs
    apply ih
    intro x hx
    cases op with
    | gen =>
      simp only [applyMilestoneOp, List.mem_append, List.mem_singleton] at hx ⊢
      rcases hx with hx | rfl
      · exact Nat.le_succ_of_le (hs x hx)
      · exact Nat.le_refl _
    | load k =>
      simp only [applyMilestoneOp, List.mem_append, List.mem_singleton] at hx ⊢
      rcases hx with hx | rfl
      · have := hs x hx
        split <;> omega
      · split <;> omega

theorem applyDateOp_preserves_original (m : MilestoneDates) (op : DateEditOp)
    (h : m.originalCompletionDate ≠ "") :
    (applyDateOp m op).originalCompletionDate = m.originalCompletionDate := by
  cases op with
  | setCurrentDate s => rfl
  | blurDate =>
    simp only [applyDateOp, handleMilestoneDateBlur, if_neg h]

/-! ### Claim theorems -/

/-- C1: in any sequence of `addMilestoneSection` calls — fresh additions
interleaved with loads of snapshot milestones whose ids are
`milestone-<k>` — every suffix seen so far is strictly below the suffix the
next fresh generation would produce (so each freshly generated id beats all
earlier generated or loaded suffixes); moreover appending a fresh
generation records exactly that suffix, and no add or load ever decreases
the counter (it is reset only by `generateRoadmap`, which clears the
roadmap). -/
theorem milestone_id_suffix_monotone (l : List MilestoneOp) (x : Nat)
    (hx : x ∈ (runMilestoneOps l).seenSuffixes) :
    x < generatedSuffix (runMilestoneOps l) ∧
    (runMilestoneOps (l ++ [MilestoneOp.gen])).seenSuffixes
      = (runMilestoneOps l).seenSuffixes ++ [generatedSuffix (runMilestoneOps l)] ∧
    (∀ (s : MilestoneIdState) (op : MilestoneOp),
      s.milestoneCounter < (applyMilestoneOp s op).milestoneCounter) := by
  refine ⟨?_, ?_, ?_⟩
  · have hdom : x ≤ (runMilestoneOps l).milestoneCounter :=
      milestone_counter_dominates l ⟨0, []⟩ (by intro x hx; simp at hx) x hx
    have hgen : generatedSuffix (runMilestoneOps l)
        = (runMilestoneOps l).milestoneCounter + 1 := rfl
    omega
  · show (runMilestoneOps (l ++ [MilestoneOp.gen])).seenSuffixes = _
    unfold runMilestoneOps
    rw [List.foldl_append]
    rfl
  · intro s op
    cases op with
    | gen => exact Nat.lt_succ_self _
    | load k =>
      show s.milestoneCounter < (if s.milestoneCounter + 1 ≤ k then k + 1
        else s.milestoneCounter + 1)
      split <;> omega

/-- C1 witness: loading `milestone-5` into a fresh roadmap and then adding a
milestone: the loaded suffix 5 is below the next generated suffix. -/
theorem milestone_id_suffix_monotone_witness :
    5 ∈ (runMilestoneOps [MilestoneOp.load 5, MilestoneOp.gen]).seenSuffixes ∧
    5 < generatedSuffix (runMilestoneOps [MilestoneOp.load 5, MilestoneOp.gen]) :=
  ⟨by decide, (milestone_id_suffix_monotone [MilestoneOp.load 5, MilestoneOp.gen] 5 (by decide)).1⟩

/-- C2: when a milestone has no original completion date yet, committing
(via blur) a valid non-empty current completion date copies it into the
original date; and once the original date is non-empty, no sequence of
normal date edits (input changes and blurs) ever modifies it. -/
theorem original_completion_date_write_once (m : MilestoneDates) (c : String)
    (h0 : m.originalCompletionDate = "") (h1 : c ≠ "")
    (h2 : isValidJsDate c = true) (ops : List DateEditOp) :
    (applyDateOp { m with currentCompletionDate := c }
      DateEditOp.blurDate).originalCompletionDate = c ∧
    ∀ (m' : MilestoneDates), m'.originalCompletionDate ≠ "" →
      (ops.foldl applyDateOp m').originalCompletionDate
        = m'.originalCompletionDate := by
  constructor
  · have e1 : ({ m with currentCompletionDate := c } : MilestoneDates).originalCompletionDate
        = "" := h0
    show (handleMilestoneDateBlur
      { m with currentCompletionDate := c }).originalCompletionDate = c
    simp [handleMilestoneDateBlur, e1, h0, h1, h2]
  · induction ops with
    | nil => intro m' _; rfl
    | cons op ops ih =>
      intro m' hne
      have hstep := applyDateOp_preserves_original m' op hne
      have := ih (applyDateOp m' op) (by rw [hstep]; exact hne)
      simpa [hstep] using this

/-- C2 witness: committing `2025-06-01` on a milestone with no original
date sets the original date, and a later change to `2025-07-01` followed by
a blur leaves it at `2025-06-01`. -/
theorem original_completion_date_write_once_witness :
    (⟨"", ""⟩ : MilestoneDates).originalCompletionDate = "" ∧
    "2025-06-01" ≠ "" ∧ isValidJsDate "2025-06-01" = true ∧
    (applyDateOp ⟨"2025-06-01", ""⟩ DateEditOp.blurDate).originalCompletionDate
      = "2025-06-01" ∧
    (([DateEditOp.setCurrentDate "2025-07-01", DateEditOp.blurDate].foldl applyDateOp
        ⟨"2025-07-01", "2025-06-01"⟩).originalCompletionDate = "2025-06-01") :=
  ⟨rfl, by decide, by decide,
   (original_completion_date_write_once ⟨"", ""⟩ "2025-06-01" rfl (by decide) (by decide)
     [DateEditOp.setCurrentDate "2025-07-01", DateEditOp.blurDate]).1,
   (original_completion_date_write_once ⟨"", ""⟩ "2025-06-01" rfl (by decide) (by decide)
     [DateEditOp.setCurrentDate "2025-07-01", DateEditOp.blurDate]).2
     ⟨"2025-07-01", "2025-06-01"⟩ (by decide)⟩

/-- C5: a registry holding exactly one status definition rejects the
remove click unchanged (length stays 1), and every legend operation — add,
rename, remove, icon change — keeps the registry non-empty. -/
theorem last_status_guard (r : List StatusDef) (i : Nat) (h1 : r.length = 1) :
    handleLegendClickRemove r i = (r, none) ∧
    (handleLegendClickRemove r i).1.length = 1 ∧
    (∀ (r' : List StatusDef) (op : RegistryOp),
      1 ≤ r'.length → 1 ≤ (applyRegistryOp r' op).length) := by
  have hrej : handleLegendClickRemove r i = (r, none) := by
    unfold handleLegendClickRemove
    rw [if_pos (by omega)]
  refine ⟨hrej, by rw [hrej]; exact h1, ?_⟩
  intro r' op hlen
  cases op with
  | add =>
    show 1 ≤ (r' ++ [_]).length
    simp
  | rename j nm =>
    show 1 ≤ (handleStatusLegendChange r' j nm).1.length
    simp only [handleStatusLegendChange]
    split
    · split
      · exact hlen
      · split
        · exact hlen
        · simpa using hlen
    · exact hlen
  | remove j =>
    show 1 ≤ (handleLegendClickRemove r' j).1.length
    simp only [handleLegendClickRemove]
    split
    · exact hlen
    · split
      · have : (r'.eraseIdx j).length = r'.length - 1 := by
          rename_i hle hj
          exact List.length_eraseIdx_of_lt hj
        simp only [this]
        omega
      · exact hlen
  | setIcon j e =>
    show 1 ≤ (handleEmojiGridClick r' j e).length
    simp only [handleEmojiGridClick]
    split
    · split
      · exact hlen
      · simpa using hlen
    · exact hlen

/-- C5 witness: the singleton registry `[Completed]` rejects removal of its
only entry. -/
theorem last_status_guard_witness :
    ([⟨"Completed", "✅"⟩] : List StatusDef).length = 1 ∧
    handleLegendClickRemove [⟨"Completed", "✅"⟩] 0 = ([⟨"Completed", "✅"⟩], none) :=
  ⟨rfl, (last_status_guard [⟨"Completed", "✅"⟩] 0 rfl).1⟩

/-- C3: renaming a status at a valid index to a distinct, non-empty trimmed
name makes the `updateRoadmapDropdowns` pass rewrite exactly the checklist
items whose status equals the old name to the new name; every other item —
including items independently already carrying the new name — is returned
unchanged. -/
theorem rename_propagation (r : List StatusDef) (i : Nat) (hi : i < r.length)
    (newNameRaw : String) (ht : jsTrim newNameRaw ≠ "")
    (hd : (r.get ⟨i, hi⟩).name ≠ jsTrim newNameRaw)
    (items : List ChecklistItemEl)
    (hvalid : ∀ it ∈ items, it.status = (r.get ⟨i, hi⟩).name ∨
      it.status ∈ statusNames (handleStatusLegendChange r i newNameRaw).1) :
    (handleStatusLegendChange r i newNameRaw).2
      = some ((r.get ⟨i, hi⟩).name, jsTrim newNameRaw) ∧
    updateRoadmapDropdowns (handleStatusLegendChange r i newNameRaw).1
        (some (r.get ⟨i, hi⟩).name) (some (jsTrim newNameRaw)) none items
      = items.map (fun it =>
          if it.status = (r.get ⟨i, hi⟩).name then
            { it with status := jsTrim newNameRaw }
          else it) := by
  have hre : handleStatusLegendChange r i newNameRaw
      = (r.set i { r.get ⟨i, hi⟩ with name := jsTrim newNameRaw },
         some ((r.get ⟨i, hi⟩).name, jsTrim newNameRaw)) := by
    have hd' : ¬ r[i].name = jsTrim newNameRaw := hd
    simp [handleStatusLegendChange, hi, ht, hd']
  refine ⟨by rw [hre], ?_⟩
  rw [hre] at hvalid ⊢
  unfold updateRoadmapDropdowns
  apply List.map_congr_left
  intro it hit
  have hnew_mem : jsTrim newNameRaw
      ∈ statusNames (r.set i { r.get ⟨i, hi⟩ with name := jsTrim newNameRaw }) := by
    rw [statusNames_set]
    exact mem_set_self (statusNames r) i (jsTrim newNameRaw)
      (by simpa [statusNames] using hi)
  by_cases hst : it.status = (r.get ⟨i, hi⟩).name
  · have hcond : ((r.get ⟨i, hi⟩).name ≠ jsTrim newNameRaw ∧
        it.status = (r.get ⟨i, hi⟩).name) := ⟨hd, hst⟩
    simp only [updateDropdownItem, if_pos hcond,
      (any_name_eq_iff _ _).mpr hnew_mem, if_true, if_pos hst]
  · have hmem : it.status
        ∈ statusNames (r.set i { r.get ⟨i, hi⟩ with name := jsTrim newNameRaw }) :=
      (hvalid it hit).resolve_left hst
    have hcond : ¬ ((r.get ⟨i, hi⟩).name ≠ jsTrim newNameRaw ∧
        it.status = (r.get ⟨i, hi⟩).name) := fun hc => hst hc.2
    simp only [updateDropdownItem, if_neg hcond,
      (any_name_eq_iff _ _).mpr hmem, if_true, if_neg hst]

/-- C3 witness: renaming `In Progress` to `Active` rewrites exactly the two
`In Progress` items and leaves the `Completed` item untouched. -/
theorem rename_propagation_witness :
    (0 : Nat) < ([⟨"In Progress", "⚙️"⟩, ⟨"Completed", "✅"⟩] : List StatusDef).length ∧
    jsTrim "Active" ≠ "" ∧
    updateRoadmapDropdowns
        (handleStatusLegendChange
          [⟨"In Progress", "⚙️"⟩, ⟨"Completed", "✅"⟩] 0 "Active").1
        (some "In Progress") (some "Active") none
        [⟨"In Progress", "⚙️", "In Progress", "a"⟩,
         ⟨"In Progress", "⚙️", "In Progress", "b"⟩,
         ⟨"Completed", "✅", "Completed", "c"⟩]
      = [⟨"Active", "⚙️", "In Progress", "a"⟩,
         ⟨"Active", "⚙️", "In Progress", "b"⟩,
         ⟨"Completed", "✅", "Completed", "c"⟩] := by
  refine ⟨by decide, by decide, ?_⟩
  have h := (rename_propagation
    [⟨"In Progress", "⚙️"⟩, ⟨"Completed", "✅"⟩] 0 (by decide) "Active"
    (by decide) (by decide)
    [⟨"In Progress", "⚙️", "In Progress", "a"⟩,
     ⟨"In Progress", "⚙️", "In Progress", "b"⟩,
     ⟨"Completed", "✅", "Completed", "c"⟩]
    (by decide)).2
  exact h.trans (by decide)

/-- C4: removing a status from a registry of at least two uniquely named
definitions makes the `updateRoadmapDropdowns` pass reset exactly the items
carrying the removed name to the registry's new first entry — status, icon
and `aria-label` in the same pass — while items referencing other statuses
are returned unchanged; the registry shrinks by one. -/
theorem removal_fallback (r : List StatusDef) (i : Nat) (hi : i < r.length)
    (h2 : 2 ≤ r.length) (hnd : (statusNames r).Nodup)
    (items : List ChecklistItemEl)
    (hvalid : ∀ it ∈ items, it.status ∈ statusNames r) :
    (handleLegendClickRemove r i).2 = some (r.get ⟨i, hi⟩).name ∧
    (handleLegendClickRemove r i).1.length + 1 = r.length ∧
    updateRoadmapDropdowns (handleLegendClickRemove r i).1 none none
        (some (r.get ⟨i, hi⟩).name) items
      = items.map (fun it =>
          if it.status = (r.get ⟨i, hi⟩).name then
            { status := ((handleLegendClickRemove r i).1.headD ⟨"Not Started", "❓"⟩).name,
              icon := ((handleLegendClickRemove r i).1.headD ⟨"Not Started", "❓"⟩).icon,
              label := ((handleLegendClickRemove r i).1.headD ⟨"Not Started", "❓"⟩).name,
              text := it.text }
          else it) := by
  have hre : handleLegendClickRemove r i = (r.eraseIdx i, some (r.get ⟨i, hi⟩).name) := by
    unfold handleLegendClickRemove
    rw [if_neg (by omega), dif_pos hi]
  have hlen : (r.eraseIdx i).length = r.length - 1 := List.length_eraseIdx_of_lt hi
  refine ⟨by rw [hre], by rw [hre]; simpa [hlen] using by omega, ?_⟩
  rw [hre]
  obtain ⟨first, rest, hcons⟩ : ∃ first rest, r.eraseIdx i = first :: rest := by
    cases herase : r.eraseIdx i with
    | nil => exfalso; rw [herase] at hlen; simp at hlen; omega
    | cons a t => exact ⟨a, t, rfl⟩
  have hfirstD : (r.eraseIdx i).headD (⟨"Not Started", "❓"⟩ : StatusDef) = first := by
    rw [hcons]; rfl
  have hremoved_not_mem : (r.get ⟨i, hi⟩).name ∉ statusNames (r.eraseIdx i) := by
    rw [statusNames_eraseIdx]
    have hgetmap : (statusNames r).get ⟨i, by simpa [statusNames] using hi⟩
        = (r.get ⟨i, hi⟩).name := by
      simp [statusNames]
    rw [← hgetmap]
    exact get_not_mem_eraseIdx (statusNames r) hnd i (by simpa [statusNames] using hi)
  unfold updateRoadmapDropdowns
  apply List.map_congr_left
  intro it hit
  by_cases hst : it.status = (r.get ⟨i, hi⟩).name
  · have hnotfound : ¬ ((r.eraseIdx i).any (fun s => s.name = it.status) = true) := by
      rw [any_name_eq_iff]
      rw [hst]
      exact hremoved_not_mem
    have hfirstName : firstStatusNameOf (r.eraseIdx i) = first.name := by
      rw [hcons]; rfl
    have hfind : findStatusOr (r.eraseIdx i) first.name = first := by
      rw [hcons]
      simp [findStatusOr]
    simp only [updateDropdownItem, if_neg hnotfound, if_pos hst, hfind, hfirstName,
      hfirstD]
  · have hmem : it.status ∈ statusNames (r.eraseIdx i) := by
      rw [statusNames_eraseIdx]
      have hgetmap : (statusNames r).get ⟨i, by simpa [statusNames] using hi⟩
          = (r.get ⟨i, hi⟩).name := by
        simp [statusNames]
      exact mem_eraseIdx_of_ne (statusNames r) it.status i
        (by simpa [statusNames] using hi) (hvalid it hit) (by rw [hgetmap]; exact hst)
    have hfound : ((r.eraseIdx i).any (fun s => s.name = it.status) = true) :=
      (any_name_eq_iff _ _).mpr hmem
    simp only [updateDropdownItem, hfound, if_true, if_neg hst]

/-- C4 witness: removing `Completed` from
`[Not Started, In Progress, Completed]` resets the `Completed` item to
`Not Started` (status, icon and label) and leaves the others unchanged;
the registry keeps 2 entries. -/
theorem removal_fallback_witness :
    2 ≤ ([⟨"Not Started", "📝"⟩, ⟨"In Progress", "⚙️"⟩, ⟨"Completed", "✅"⟩]
        : List StatusDef).length ∧
    (handleLegendClickRemove
        [⟨"Not Started", "📝"⟩, ⟨"In Progress", "⚙️"⟩, ⟨"Completed", "✅"⟩] 2).1.length
      = 2 ∧
    updateRoadmapDropdowns
        (handleLegendClickRemove
          [⟨"Not Started", "📝"⟩, ⟨"In Progress", "⚙️"⟩, ⟨"Completed", "✅"⟩] 2).1
        none none (some "Completed")
        [⟨"Completed", "✅", "Completed", "x"⟩, ⟨"In Progress", "⚙️", "In Progress", "y"⟩]
      = [⟨"Not Started", "📝", "Not Started", "x"⟩,
         ⟨"In Progress", "⚙️", "In Progress", "y"⟩] := by
  refine ⟨by decide, by decide, ?_⟩
  have h := (removal_fallback
    [⟨"Not Started", "📝"⟩, ⟨"In Progress", "⚙️"⟩, ⟨"Completed", "✅"⟩] 2 (by decide)
    (by decide) (by decide)
    [⟨"Completed", "✅", "Completed", "x"⟩, ⟨"In Progress", "⚙️", "In Progress", "y"⟩]
    (by decide)).2.2
  exact h.trans (by decide)

/-- C10 counterexample: the rename path checks only that the trimmed name is
non-empty and different from the current one — renaming `Not Started` to
`Completed` in `[Not Started, Completed]` yields two definitions named
`Completed`, so the claimed pairwise distinctness fails. -/
theorem rename_uniqueness_counterexample :
    statusNames (handleStatusLegendChange
        [⟨"Not Started", "📝"⟩, ⟨"Completed", "✅"⟩] 0 "Completed").1
      = ["Completed", "Completed"] ∧
    ¬ (statusNames (handleStatusLegendChange
        [⟨"Not Started", "📝"⟩, ⟨"Completed", "✅"⟩] 0 "Completed").1).Nodup := by
  exact ⟨by decide, by decide⟩

/-- C10 (amended): adding a status always auto-suffixes to a name not yet in
the registry, so `add` preserves pairwise distinct names; `rename` validates
only non-emptiness, so it preserves distinctness only when the trimmed new
name is not already the name of another definition. -/
theorem status_name_uniqueness_amended (r : List StatusDef)
    (hnd : (statusNames r).Nodup) (i : Nat) (newNameRaw : String)
    (hother : jsTrim newNameRaw ∉ statusNames (r.eraseIdx i)) :
    freshStatusName r ∉ statusNames r ∧
    (statusNames (handleAddStatusClick r)).Nodup ∧
    (statusNames (handleStatusLegendChange r i newNameRaw).1).Nodup := by
  have hfresh := freshStatusName_not_mem r
  refine ⟨hfresh, ?_, ?_⟩
  · show (statusNames (r ++ [⟨freshStatusName r, "❓"⟩])).Nodup
    have : statusNames (r ++ [⟨freshStatusName r, "❓"⟩])
        = statusNames r ++ [freshStatusName r] := by
      simp [statusNames]
    rw [this, List.nodup_append]
    exact ⟨hnd, List.nodup_singleton _, by
      intro x hx hmem
      simp only [List.mem_singleton] at hmem
      exact hfresh (hmem ▸ hx)⟩
  · by_cases h : i < r.length
    · by_cases h1 : jsTrim newNameRaw = ""
      · have hkeep : (handleStatusLegendChange r i newNameRaw).1 = r := by
          unfold handleStatusLegendChange
          rw [dif_pos h]
          simp [h1]
        rw [hkeep]
        exact hnd
      · by_cases hsame : (r.get ⟨i, h⟩).name = jsTrim newNameRaw
        · have hsame2 : r[i].name = jsTrim newNameRaw := hsame
          have hkeep : (handleStatusLegendChange r i newNameRaw).1 = r := by
            unfold handleStatusLegendChange
            rw [dif_pos h]
            simp [h1, hsame2]
          rw [hkeep]
          exact hnd
        · have hsame2 : ¬ r[i].name = jsTrim newNameRaw := hsame
          have hset : (handleStatusLegendChange r i newNameRaw).1
              = r.set i { r.get ⟨i, h⟩ with name := jsTrim newNameRaw } := by
            unfold handleStatusLegendChange
            rw [dif_pos h]
            simp [h1, hsame2]
          rw [hset, statusNames_set]
          apply nodup_set_of_not_mem_eraseIdx _ _ _ hnd
          rw [← statusNames_eraseIdx]
          exact hother
    · have hkeep : (handleStatusLegendChange r i newNameRaw).1 = r := by
        unfold handleStatusLegendChange
        rw [dif_neg h]
      rw [hkeep]
      exact hnd

/-- C10 witness (amended claim): on the default registry, the auto-suffixed
add name is fresh and uniqueness is preserved; renaming index 0 to the
unused name `Paused` also preserves uniqueness. -/
theorem status_name_uniqueness_amended_witness :
    (statusNames DEFAULT_STATUSES).Nodup ∧
    jsTrim "Paused" ∉ statusNames (DEFAULT_STATUSES.eraseIdx 0) ∧
    freshStatusName DEFAULT_STATUSES ∉ statusNames DEFAULT_STATUSES ∧
    (statusNames (handleAddStatusClick DEFAULT_STATUSES)).Nodup ∧
    (statusNames (handleStatusLegendChange DEFAULT_STATUSES 0 "Paused").1).Nodup :=
  ⟨by decide, by decide,
   (status_name_uniqueness_amended DEFAULT_STATUSES (by decide) 0 "Paused" (by decide)).1,
   (status_name_uniqueness_amended DEFAULT_STATUSES (by decide) 0 "Paused" (by decide)).2.1,
   (status_name_uniqueness_amended DEFAULT_STATUSES (by decide) 0 "Paused" (by decide)).2.2⟩

/-- C6: `getCurrentRoadmapState` looks the milestone title up with the
selector `h4[contenteditable="true"]`, but `createMilestoneElement` creates
the title as an `h3`; the element check therefore fails for every milestone
and the serializer skips them all — a roadmap holding one milestone
serializes to a snapshot with zero milestones, so a round trip loses every
milestone instead of preserving count and fields. -/
theorem serialization_skips_h3_milestones :
    (addMilestoneSection DEFAULT_STATUSES 0 [] none).2.length = 1 ∧
    (addMilestoneSection DEFAULT_STATUSES 0 [] none).2.map MilestoneEl.titleTag
      = ["h3"] ∧
    (getCurrentRoadmapState "My Roadmap"
        (addMilestoneSection DEFAULT_STATUSES 0 [] none).2).milestones = [] ∧
    (getCurrentRoadmapState "My Roadmap"
        (addMilestoneSection DEFAULT_STATUSES 0 [] none).2).milestones.length
      ≠ (addMilestoneSection DEFAULT_STATUSES 0 [] none).2.length := by
  refine ⟨rfl, rfl, rfl, by decide⟩

/-- C7: stored data that parses to an object carrying a `periods` array is
rejected by `renderRoadmapFromData` with the dedicated incompatible-format
outcome — distinct from the `corrupt` outcome reserved for unparseable
stored bytes — it is never loaded as a roadmap, and in both failure cases
`loadRoadmapState` resets the document area to empty. -/
theorem legacy_periods_rejected (fields : List (String × Json)) (elems : List Json)
    (h : getField (Json.jsonObj fields) "periods" = some (Json.jsonArr elems)) :
    loadRoadmapState (some (some (Json.jsonObj fields)))
      = (LoadOutcome.incompatibleFormat, emptyDocArea) ∧
    (∀ doc : DocArea,
      loadRoadmapState (some (some (Json.jsonObj fields))) ≠ (LoadOutcome.loaded, doc)) ∧
    loadRoadmapState (some none) = (LoadOutcome.corrupt, emptyDocArea) ∧
    LoadOutcome.incompatibleFormat ≠ LoadOutcome.corrupt := by
  have hrender : renderRoadmapFromData (Json.jsonObj fields)
      = RenderResult.incompatibleLegacy := by
    unfold renderRoadmapFromData
    rw [h]
    rfl
  have hload : loadRoadmapState (some (some (Json.jsonObj fields)))
      = (LoadOutcome.incompatibleFormat, emptyDocArea) := by
    show (match renderRoadmapFromData (Json.jsonObj fields) with
      | RenderResult.rendered nm ms => (LoadOutcome.loaded, (⟨nm, ms⟩ : DocArea))
      | RenderResult.incompatibleLegacy => (LoadOutcome.incompatibleFormat, emptyDocArea)
      | RenderResult.invalidData => (LoadOutcome.invalidFormat, emptyDocArea)
      | RenderResult.invalidMilestones => (LoadOutcome.invalidFormat, emptyDocArea))
        = (LoadOutcome.incompatibleFormat, emptyDocArea)
    rw [hrender]
  refine ⟨hload, ?_, rfl, by decide⟩
  intro doc heq
  rw [hload] at heq
  exact LoadOutcome.noConfusion (congrArg Prod.fst heq)

/-- C7 witness: the stored value `{ "periods": [] }` is reported as
incompatible format and the document area is cleared. -/
theorem legacy_periods_rejected_witness :
    getField (Json.jsonObj [("periods", Json.jsonArr [])]) "periods"
      = some (Json.jsonArr []) ∧
    loadRoadmapState (some (some (Json.jsonObj [("periods", Json.jsonArr [])])))
      = (LoadOutcome.incompatibleFormat, emptyDocArea) ∧
    loadRoadmapState (some none) = (LoadOutcome.corrupt, emptyDocArea) :=
  ⟨rfl,
   (legacy_periods_rejected [("periods", Json.jsonArr [])] [] rfl).1,
   (legacy_periods_rejected [("periods", Json.jsonArr [])] [] rfl).2.2.1⟩

theorem runSaveEvents_trigger_chain (wait : Nat) :
    ∀ (ts : List Nat) (c : Nat),
      List.Chain (fun a b => b < a + wait) c ts →
      runSaveEvents wait (ts.map SaveEvent.trigger) (some (c + wait))
        = [(ts.getLastD c + wait, true)] := by
  intro ts
  induction ts with
  | nil => intro c _; rfl
  | cons t ts ih =>
    intro c hchain
    obtain ⟨hrel, hchain'⟩ := List.chain_cons.mp hchain
    show (if c + wait ≤ t then [((c + wait), true)] else [])
        ++ runSaveEvents wait (ts.map SaveEvent.trigger) (some (t + wait))
      = [((t :: ts).getLastD c + wait, true)]
    rw [if_neg (by omega), List.nil_append, ih t hchain', List.getLastD_cons]

/-- C8: for a burst of one or more autosave triggers in which each call
arrives strictly within the debounce window of the previous one, exactly
one persistence call results, and it is the autosave fired one debounce
delay after the last call of the burst. -/
theorem debounce_coalescing (t : Nat) (ts : List Nat)
    (hchain : List.Chain (fun a b => b < a + autosaveDebounceDelay) t ts) :
    runSaveEvents autosaveDebounceDelay ((t :: ts).map SaveEvent.trigger) none
      = [(ts.getLastD t + autosaveDebounceDelay, true)] := by
  show runSaveEvents autosaveDebounceDelay (ts.map SaveEvent.trigger)
      (some (t + autosaveDebounceDelay))
    = [(ts.getLastD t + autosaveDebounceDelay, true)]
  exact runSaveEvents_trigger_chain autosaveDebounceDelay ts t hchain

/-- C8 witness: five rapid triggers at 0, 100, 200, 300 and 400 ms produce a
single autosave at 400 + 2500 = 2900 ms. -/
theorem debounce_coalescing_witness :
    List.Chain (fun a b => b < a + autosaveDebounceDelay) 0 [100, 200, 300, 400] ∧
    runSaveEvents autosaveDebounceDelay
        ([0, 100, 200, 300, 400].map SaveEvent.trigger) none
      = [(2900, true)] := by
  have hchain : List.Chain (fun a b => b < a + autosaveDebounceDelay)
      0 [100, 200, 300, 400] :=
    List.Chain.cons (by decide) (List.Chain.cons (by decide)
      (List.Chain.cons (by decide) (List.Chain.cons (by decide) List.Chain.nil)))
  exact ⟨hchain, debounce_coalescing 0 [100, 200, 300, 400] hchain⟩

/-- C9 as claimed: after a manual save that no further trigger follows, no
autosave ever fires at or after the manual save (the debounce timer would
have to be disarmed).  The code does not clear the timer, so this is
refuted below. -/
def manualSaveDisarmsTimer : Prop :=
  ∀ (es : List SaveEvent) (t : Nat),
    ((runSaveEvents autosaveDebounceDelay (es ++ [SaveEvent.manualSave t]) none).filter
      (fun sr => sr.2 && decide (t ≤ sr.1))) = []

/-- C9 counterexample: a trigger at 0 ms arms the timer; the manual save at
1 ms runs immediately but leaves the timer armed, and the pending autosave
still fires at 2500 ms — after the manual save, with no trigger in
between. -/
theorem manual_save_disarm_counterexample :
    runSaveEvents autosaveDebounceDelay
        [SaveEvent.trigger 0, SaveEvent.manualSave 1] none
      = [(1, false), (2500, true)] ∧
    ¬ manualSaveDisarmsTimer := by
  refine ⟨by decide, ?_⟩
  intro hclaim
  have h := hclaim [SaveEvent.trigger 0] 1
  revert h
  decide

/-- C9 (amended): a manual save runs the persistence call immediately,
bypassing the debounce delay, but it leaves the debounce timer slot
untouched — an autosave already pending at the manual save still fires when
its deadline elapses. -/
theorem manual_save_immediate_timer_kept (wait t f : Nat) (h : t < f) :
    runSaveEvents wait [SaveEvent.manualSave t] (some f) = [(t, false), (f, true)] ∧
    runSaveEvents wait [SaveEvent.manualSave t] none = [(t, false)] := by
  constructor
  · show (if f ≤ t then [(f, true)] else [])
        ++ (t, false) :: runSaveEvents wait []
            (match (some f : Option Nat) with
             | some g => if g ≤ t then none else some g
             | none => none)
      = [(t, false), (f, true)]
    rw [if_neg (by omega)]
    show [] ++ (t, false) :: runSaveEvents wait [] (if f ≤ t then none else some f)
      = [(t, false), (f, true)]
    rw [if_neg (by omega)]
    rfl
  · rfl

/-- C9 amended witness: manual save at 1 ms with an autosave pending for
2500 ms: the manual save runs at once and the autosave still fires. -/
theorem manual_save_immediate_timer_kept_witness :
    (1 : Nat) < 2500 ∧
    runSaveEvents autosaveDebounceDelay [SaveEvent.manualSave 1] (some 2500)
      = [(1, false), (2500, true)] :=
  ⟨by decide, (manual_save_immediate_timer_kept autosaveDebounceDelay 1 2500 (by decide)).1⟩
